import Mathlib

/-!
Verification of the lcfilter core pipeline (log-line parser, filter/route
engine, stream router) against its natural-language specification.

The embedding below follows the Python sources in `src/lcfilter/`:
Python strings are modelled as `List Char`, fallible operations as `Option`
or `Except`, compiled regular expressions carried by pattern rules as their
search functions, and the five logcat layout regexes as executable matchers
over `List Char` that implement the greedy/backtracking behaviour of the
concrete patterns in `parser_logcat.py`.
-/

set_option autoImplicit false

namespace LCFilter

/-- Python strings are modelled as lists of characters. -/
abbrev Str := List Char

/-! ### models.py -/

/-- Android logcat log levels (models.py `LogLevel`). -/
inductive LogLevel where
  | verbose
  | debug
  | info
  | warning
  | error
  | fatal
  | silent
deriving DecidableEq, Repr

/-- The single-character value of a log level (models.py `LogLevel` enum values). -/
def LogLevel.value : LogLevel → Char
  | .verbose => 'V'
  | .debug => 'D'
  | .info => 'I'
  | .warning => 'W'
  | .error => 'E'
  | .fatal => 'F'
  | .silent => 'S'

/-- Whitespace characters recognised by Python `str.strip()` and the regex
class `\s` on the ASCII range (the inputs of interest are ASCII). -/
def isReSpace (c : Char) : Bool :=
  c = ' ' || c = '\t' || c = '\n' || c = '\r' || c = '\x0b' || c = '\x0c'

/-- Python `str.strip()`: drop leading and trailing whitespace. -/
def pyStrip (s : Str) : Str :=
  ((s.dropWhile isReSpace).reverse.dropWhile isReSpace).reverse

/-- models.py `LogLevel.from_str`: upper-case and strip the input, then
compare with the single-character enum values; the `ValueError` raise is
modelled as `none`. -/
def LogLevel.fromStr (s : Str) : Option LogLevel :=
  let v := (pyStrip s).map Char.toUpper
  if v = ['V'] then some .verbose
  else if v = ['D'] then some .debug
  else if v = ['I'] then some .info
  else if v = ['W'] then some .warning
  else if v = ['E'] then some .error
  else if v = ['F'] then some .fatal
  else if v = ['S'] then some .silent
  else none

/-- models.py `LogEntry`: a parsed logcat log entry. -/
structure LogEntry where
  raw_line : Str
  timestamp : Option Str := none
  pid : Option Nat := none
  tid : Option Nat := none
  level : Option LogLevel := none
  tag : Option Str := none
  message : Str := []
deriving DecidableEq, Repr

/-- models.py ignore-rule variants. The two regex-based variants carry the
compiled pattern abstractly as its search function (`re.search` returning a
truthy match is the Boolean the code consumes). -/
inductive IgnoreRule where
  | tagRule (tag : Str)
  | levelRule (level : LogLevel)
  | tagLevel (tag : Str) (level : LogLevel)
  | pattern (search : Str → Bool)
  | linePattern (search : Str → Bool)

/-- models.py `matches` methods of the five rule dataclasses. A `None`
entry field never equals a rule's string/level field (Python `==`). -/
def IgnoreRule.matches : IgnoreRule → LogEntry → Bool
  | .tagRule t, e => decide (e.tag = some t)
  | .levelRule l, e => decide (e.level = some l)
  | .tagLevel t l, e => decide (e.tag = some t) && decide (e.level = some l)
  | .pattern search, e => search e.message
  | .linePattern search, e => search e.raw_line

/-- models.py `IgnoreConfig`: the ordered rule list parsed from `.logcatignore`. -/
structure IgnoreConfig where
  rules : List IgnoreRule := []

/-- Modelled from the spec: the scope descriptor ("minimally, a set of tag
strings considered belonging to the user's application").  The `ScopeConfig`
dataclass holding this `tags` set is referenced by `filter_engine.py`
(`scope.tags`) and constructed by the tests as `ScopeConfig(tags={...})`,
but its definition is missing from the `models.py` under `src/`.  Python set
membership is modelled as list membership. -/
structure ScopeConfig where
  tags : List Str := []

/-- Modelled from the spec: the three-way routing category enum
(`IN_SCOPE`, `IGNORED`, `NOISE`); imported from `models` by
`filter_engine.py`, `stream_router.py` and the tests but missing from the
`models.py` under `src/`. -/
inductive RouteCategory where
  | IN_SCOPE
  | IGNORED
  | NOISE
deriving DecidableEq, Repr

/-- Modelled from the spec: the routing result (category plus the rule
responsible for an IGNORED verdict); constructed by
`FilterEngine.route_entry` but missing from the `models.py` under `src/`. -/
structure RouteResult where
  entry : LogEntry
  category : RouteCategory
  matched_rule : Option IgnoreRule := none

/-- models.py `FilterResult`: binary-filter verdict for one entry. -/
structure FilterResult where
  entry : LogEntry
  should_display : Bool
  matched_rule : Option IgnoreRule := none

/-! ### filter_engine.py -/

/-- filter_engine.py `is_event_in_scope`. -/
def is_event_in_scope (entry : LogEntry) (scope : Option ScopeConfig) : Bool :=
  match scope with
  | none => false
  | some scope =>
    let tag := entry.tag.getD []
    if tag = [] then false
    else decide (tag ∈ scope.tags)

/-- filter_engine.py `is_pattern_based_rule`. -/
def is_pattern_based_rule : IgnoreRule → Bool
  | .pattern _ => true
  | .linePattern _ => true
  | _ => false

/-- filter_engine.py `FilterEngine` state: rule config, scope config and the
two extension-hook chains. -/
structure FilterEngine where
  ignore_config : IgnoreConfig
  scope_config : ScopeConfig
  pre_filters : List (LogEntry → Option FilterResult) := []
  post_filters : List (FilterResult → FilterResult) := []

/-- The pre-filter loop of `FilterEngine.filter_entry`: first hook returning
a result short-circuits. -/
def runPreFilters : List (LogEntry → Option FilterResult) → LogEntry → Option FilterResult
  | [], _ => none
  | f :: fs, entry =>
    match f entry with
    | some r => some r
    | none => runPreFilters fs entry

/-- filter_engine.py `FilterEngine._apply_post_filters`. -/
def applyPostFilters (hooks : List (FilterResult → FilterResult)) (r : FilterResult) : FilterResult :=
  hooks.foldl (fun acc f => f acc) r

/-- The rule loop of `FilterEngine._check_ignore_rules`: skip non-pattern
rules for in-scope entries, return the first match. -/
def scanRules (inScope : Bool) (entry : LogEntry) : List IgnoreRule → Option IgnoreRule
  | [] => none
  | r :: rs =>
    if inScope && !is_pattern_based_rule r then scanRules inScope entry rs
    else if r.matches entry then some r
    else scanRules inScope entry rs

/-- filter_engine.py `FilterEngine._check_ignore_rules`. -/
def checkIgnoreRules (e : FilterEngine) (entry : LogEntry) : Option IgnoreRule :=
  let inScope := is_event_in_scope entry (some e.scope_config)
  scanRules inScope entry e.ignore_config.rules

/-- filter_engine.py `FilterEngine.filter_entry`. -/
def FilterEngine.filter_entry (e : FilterEngine) (entry : LogEntry) : FilterResult :=
  match runPreFilters e.pre_filters entry with
  | some r => applyPostFilters e.post_filters r
  | none =>
    let matched := checkIgnoreRules e entry
    applyPostFilters e.post_filters
      { entry := entry, should_display := matched.isNone, matched_rule := matched }

/-- The rule loop of `FilterEngine.route_entry`: first matching rule, with
every rule variant evaluated. -/
def routeScan (entry : LogEntry) : List IgnoreRule → Option IgnoreRule
  | [] => none
  | r :: rs => if r.matches entry then some r else routeScan entry rs

/-- filter_engine.py `FilterEngine.route_entry`. -/
def FilterEngine.route_entry (e : FilterEngine) (entry : LogEntry) : RouteResult :=
  if is_event_in_scope entry (some e.scope_config) then
    { entry := entry, category := .IN_SCOPE }
  else
    match routeScan entry e.ignore_config.rules with
    | some r => { entry := entry, category := .IGNORED, matched_rule := some r }
    | none => { entry := entry, category := .NOISE }

/-! ### Engine lemmas -/

theorem routeScan_eq_find (entry : LogEntry) (rules : List IgnoreRule) :
    routeScan entry rules = rules.find? (fun r => r.matches entry) := by
  induction rules with
  | nil => rfl
  | cons r rs ih =>
    simp only [routeScan, List.find?]
    cases h : r.matches entry <;> simp [h, ih]

theorem scanRules_eq_find (inScope : Bool) (entry : LogEntry) (rules : List IgnoreRule) :
    scanRules inScope entry rules =
      (rules.filter (fun r => !inScope || is_pattern_based_rule r)).find?
        (fun r => r.matches entry) := by
  induction rules with
  | nil => rfl
  | cons r rs ih =>
    cases inScope <;> cases hp : is_pattern_based_rule r <;>
      cases hm : r.matches entry <;>
        simp [scanRules, List.filter_cons, List.find?_cons, hp, hm, ih]

/-! ### C1: three-way routing -/

/-- C1: Three-way routing gives scope absolute priority: an in-scope record is
routed to IN_SCOPE with no matched rule independently of the rule set (so no
rule, pattern rules included, can influence the result), while an out-of-scope
record is routed by scanning the full rule sequence in order with every rule
variant evaluated — IGNORED with the first matching rule, NOISE with no
matched rule when none matches. -/
theorem route_entry_spec (e : FilterEngine) (entry : LogEntry) :
    (is_event_in_scope entry (some e.scope_config) = true →
      e.route_entry entry =
        { entry := entry, category := .IN_SCOPE, matched_rule := none })
    ∧ (is_event_in_scope entry (some e.scope_config) = false →
      e.route_entry entry =
        match e.ignore_config.rules.find? (fun r => r.matches entry) with
        | some r => { entry := entry, category := .IGNORED, matched_rule := some r }
        | none => { entry := entry, category := .NOISE, matched_rule := none }) := by
  constructor
  · intro h
    simp [FilterEngine.route_entry, h]
  · intro h
    simp only [FilterEngine.route_entry, h, Bool.false_eq_true, if_false,
      routeScan_eq_find]

/-- Fixture: an engine whose single rule would match the in-scope tag. -/
def engineA : FilterEngine :=
  { ignore_config := { rules := [.tagRule "MyApp".toList, .tagRule "Noisy".toList] }
    scope_config := { tags := ["MyApp".toList] } }

/-- Fixture: an in-scope entry that the first rule of `engineA` matches. -/
def entryInScope : LogEntry :=
  { raw_line := "D/MyApp: hello".toList, tag := some "MyApp".toList, level := some .debug }

/-- Fixture: an out-of-scope entry matched by `engineA`'s second rule. -/
def entryNoisy : LogEntry :=
  { raw_line := "D/Noisy: hum".toList, tag := some "Noisy".toList, level := some .debug }

/-- Fixture: an out-of-scope entry matched by no rule of `engineA`. -/
def entryOther : LogEntry :=
  { raw_line := "D/Other: x".toList, tag := some "Other".toList, level := some .debug }

/-- Witness for C1 at concrete inputs: the in-scope entry is routed IN_SCOPE
even though a rule matches it; the matched noisy entry is IGNORED with that
rule; the unmatched entry is NOISE. -/
theorem route_entry_spec_witness :
    engineA.route_entry entryInScope =
      { entry := entryInScope, category := .IN_SCOPE, matched_rule := none }
    ∧ engineA.route_entry entryNoisy =
      { entry := entryNoisy, category := .IGNORED,
        matched_rule := some (.tagRule "Noisy".toList) }
    ∧ engineA.route_entry entryOther =
      { entry := entryOther, category := .NOISE, matched_rule := none } :=
  ⟨(route_entry_spec engineA entryInScope).1 (by decide),
   (route_entry_spec engineA entryNoisy).2 (by decide),
   (route_entry_spec engineA entryOther).2 (by decide)⟩

/-! ### C2: binary filter with scope exemption -/

/-- C2: Binary filter postcondition with scope exemption: with no pre- or
post-filters registered, `filter_entry` scans the rule sequence in order,
skipping a rule exactly when the record is in scope and the rule is not
pattern-based; `matched_rule` is the first non-skipped matching rule and
`should_display` is true iff no non-skipped rule matched.  Consequently
tag/level/tag+level rules never hide an in-scope record while a matching
pattern-based rule does. -/
theorem filter_entry_spec (e : FilterEngine) (entry : LogEntry)
    (h1 : e.pre_filters = []) (h2 : e.post_filters = []) :
    (e.filter_entry entry =
      { entry := entry
        should_display :=
          ((e.ignore_config.rules.filter
              (fun r => !is_event_in_scope entry (some e.scope_config)
                || is_pattern_based_rule r)).find? (fun r => r.matches entry)).isNone
        matched_rule :=
          (e.ignore_config.rules.filter
              (fun r => !is_event_in_scope entry (some e.scope_config)
                || is_pattern_based_rule r)).find? (fun r => r.matches entry) })
    ∧ (is_event_in_scope entry (some e.scope_config) = true →
        (∀ r ∈ e.ignore_config.rules, is_pattern_based_rule r = false) →
        (e.filter_entry entry).should_display = true)
    ∧ (is_event_in_scope entry (some e.scope_config) = true →
        ∀ r ∈ e.ignore_config.rules, is_pattern_based_rule r = true →
        r.matches entry = true →
        (e.filter_entry entry).should_display = false) := by
  have hmain : e.filter_entry entry =
      { entry := entry
        should_display :=
          ((e.ignore_config.rules.filter
              (fun r => !is_event_in_scope entry (some e.scope_config)
                || is_pattern_based_rule r)).find? (fun r => r.matches entry)).isNone
        matched_rule :=
          (e.ignore_config.rules.filter
              (fun r => !is_event_in_scope entry (some e.scope_config)
                || is_pattern_based_rule r)).find? (fun r => r.matches entry) } := by
    simp [FilterEngine.filter_entry, h1, h2, runPreFilters, applyPostFilters,
      checkIgnoreRules, scanRules_eq_find]
  refine ⟨hmain, ?_, ?_⟩
  · intro hs hall
    rw [hmain]
    have : e.ignore_config.rules.filter
        (fun r => !is_event_in_scope entry (some e.scope_config)
          || is_pattern_based_rule r) = [] := by
      rw [List.filter_eq_nil_iff]
      intro r hr
      simp [hs, hall r hr]
    simp [this]
  · intro hs r hr hp hm
    rw [hmain]
    have hmem : r ∈ e.ignore_config.rules.filter
        (fun r => !is_event_in_scope entry (some e.scope_config)
          || is_pattern_based_rule r) := by
      rw [List.mem_filter]
      exact ⟨hr, by simp [hs, hp]⟩
    have : ((e.ignore_config.rules.filter
        (fun r => !is_event_in_scope entry (some e.scope_config)
          || is_pattern_based_rule r)).find? (fun r => r.matches entry)).isSome := by
      rw [List.find?_isSome]
      exact ⟨r, hmem, hm⟩
    simp only [Option.isNone]
    cases hfind : (e.ignore_config.rules.filter
        (fun r => !is_event_in_scope entry (some e.scope_config)
          || is_pattern_based_rule r)).find? (fun r => r.matches entry) with
    | none => rw [hfind] at this; simp at this
    | some r' => rfl

/-- Fixture: an engine with a single scope-exempt (level) rule. -/
def engineB : FilterEngine :=
  { ignore_config := { rules := [.levelRule .debug] }
    scope_config := { tags := ["MyApp".toList] } }

/-- Fixture: entry with the in-scope tag and a DEBUG level. -/
def entryScopedDebug : LogEntry :=
  { raw_line := "D/MyApp: hi".toList, tag := some "MyApp".toList, level := some .debug }

/-- Fixture: entry with an out-of-scope tag and a DEBUG level. -/
def entryOtherDebug : LogEntry :=
  { raw_line := "D/Other: hi".toList, tag := some "Other".toList, level := some .debug }

/-- Fixture: the message-pattern rule searching for the substring `noisy`. -/
def noisyRule : IgnoreRule :=
  .pattern (fun m => decide (List.IsInfix "noisy".toList m))

/-- Fixture: an engine with a single pattern rule. -/
def engineC : FilterEngine :=
  { ignore_config := { rules := [noisyRule] }
    scope_config := { tags := ["MyApp".toList] } }

/-- Fixture: in-scope entry whose message the pattern rule matches. -/
def entryScopedNoisy : LogEntry :=
  { raw_line := "D/MyApp: a noisy thing".toList, tag := some "MyApp".toList,
    level := some .debug, message := "a noisy thing".toList }

/-- Witness for C2 at concrete inputs: a level rule never hides the in-scope
record but hides the out-of-scope one, and a matching pattern rule hides even
the in-scope record. -/
theorem filter_entry_spec_witness :
    engineB.filter_entry entryScopedDebug =
      { entry := entryScopedDebug, should_display := true, matched_rule := none }
    ∧ engineB.filter_entry entryOtherDebug =
      { entry := entryOtherDebug, should_display := false,
        matched_rule := some (.levelRule .debug) }
    ∧ (engineC.filter_entry entryScopedNoisy).should_display = false :=
  ⟨(filter_entry_spec engineB entryScopedDebug rfl rfl).1,
   (filter_entry_spec engineB entryOtherDebug rfl rfl).1,
   (filter_entry_spec engineC entryScopedNoisy rfl rfl).2.2 (by decide) noisyRule
     (List.mem_singleton.mpr rfl) rfl (by decide)⟩

/-! ### C3: scope test -/

/-- C3: `is_event_in_scope` is a total Boolean test that holds iff the scope
is present, the record's tag is present and non-empty, and the tag belongs to
the scope descriptor's tag set; it is false whenever the scope is absent or
its tag set is empty.  (Totality is intrinsic to the Lean definition; the
`tags` set of the scope descriptor is the spec-modelled field.) -/
theorem is_event_in_scope_spec (entry : LogEntry) (scope : Option ScopeConfig) :
    (is_event_in_scope entry scope = true ↔
      ∃ sc, scope = some sc ∧ ∃ t, entry.tag = some t ∧ t ≠ [] ∧ t ∈ sc.tags)
    ∧ (scope = none → is_event_in_scope entry scope = false)
    ∧ (∀ sc, scope = some sc → sc.tags = [] → is_event_in_scope entry scope = false) := by
  refine ⟨?_, ?_, ?_⟩
  · cases scope with
    | none => simp [is_event_in_scope]
    | some sc =>
      cases htag : entry.tag with
      | none => simp [is_event_in_scope, htag]
      | some t =>
        by_cases ht : t = []
        · simp [is_event_in_scope, htag, ht]
        · simp [is_event_in_scope, htag, ht]
  · intro h
    subst h
    rfl
  · intro sc h hsc
    subst h
    simp [is_event_in_scope, hsc]

/-- Witness for C3 at concrete inputs: false with no scope, false with an
empty tag set, true when the entry's tag is in the scope's tag set. -/
theorem is_event_in_scope_spec_witness :
    is_event_in_scope entryScopedDebug none = false
    ∧ is_event_in_scope entryScopedDebug (some { tags := [] }) = false
    ∧ is_event_in_scope entryScopedDebug (some { tags := ["MyApp".toList] }) = true :=
  ⟨(is_event_in_scope_spec entryScopedDebug none).2.1 rfl,
   (is_event_in_scope_spec entryScopedDebug (some { tags := [] })).2.2
     { tags := [] } rfl rfl,
   (is_event_in_scope_spec entryScopedDebug (some { tags := ["MyApp".toList] })).1.mpr
     ⟨{ tags := ["MyApp".toList] }, rfl, "MyApp".toList, rfl, by decide, by decide⟩⟩

/-! ### parser_logcat.py: the five layout regexes as executable matchers -/

/-- Regex `\d` on the ASCII range. -/
def isReDigit (c : Char) : Bool := c.isDigit

/-- Regex class `[VDIWEFS]`. -/
def isLevelChar (c : Char) : Bool :=
  c = 'V' || c = 'D' || c = 'I' || c = 'W' || c = 'E' || c = 'F' || c = 'S'

/-- Exactly `n` characters of class `p` (regex `p{n}`). -/
def takeCount (p : Char → Bool) : Nat → Str → Option (Str × Str)
  | 0, cs => some ([], cs)
  | _ + 1, [] => none
  | n + 1, c :: cs =>
    if p c then (takeCount p n cs).map (fun t => (c :: t.1, t.2)) else none

/-- One or more characters of class `p`, greedily (regex `p+`; used only
where the token after it is disjoint from `p`, so greedy is exact). -/
def takePlus (p : Char → Bool) (cs : Str) : Option (Str × Str) :=
  let t := cs.takeWhile p
  if t = [] then none else some (t, cs.dropWhile p)

/-- A single literal character. -/
def charTok (c : Char) : Str → Option Str
  | [] => none
  | d :: cs => if d = c then some cs else none

/-- Regex `([VDIWEFS])`: one level character. -/
def takeLevel : Str → Option (Str × Str)
  | [] => none
  | c :: cs => if isLevelChar c then some ([c], cs) else none

/-- Regex `([^stop]+)stop`: the non-empty run up to the first `stop`
character, consuming it.  Greedy is exact because the class excludes the
following literal. -/
def takeUntilTok (stop : Char) (cs : Str) : Option (Str × Str) :=
  let t := cs.takeWhile (fun c => c ≠ stop)
  match cs.dropWhile (fun c => c ≠ stop) with
  | [] => none
  | _ :: r => if t = [] then none else some (t, r)

/-- Regex `(?P<message>.*)$` on the remaining input: `.` cannot match a
newline and `$` matches at the end of the input or just before a final
newline, so the group is the whole newline-free remainder, or the remainder
minus a unique final newline; otherwise the match fails. -/
def matchMessageEnd (cs : Str) : Option Str :=
  if !cs.contains '\n' then some cs
  else if cs.getLast? = some '\n' && !cs.dropLast.contains '\n' then some cs.dropLast
  else none

/-- The split of `T` at its last colon. -/
def lastColonSplit : Str → Option (Str × Str)
  | [] => none
  | c :: cs =>
    match lastColonSplit cs with
    | some (pre, post) => some (c :: pre, post)
    | none => if c = ':' then some ([], cs) else none

/-- Regex `(?P<tag>\S+)\s*:\s*` with the backtracking behaviour of the
engine: the maximal non-whitespace run is tried first, requiring `\s*` and a
colon after it; failing that, `\S+` is shrunk to the longest prefix ending
just before a colon inside the run.  Returns the tag group and the input
after the colon (the trailing `\s*` is consumed by the caller). -/
def matchTagColon (cs : Str) : Option (Str × Str) :=
  let T := cs.takeWhile (fun c => !isReSpace c)
  let rest0 := cs.dropWhile (fun c => !isReSpace c)
  if T = [] then none
  else
    match rest0.dropWhile isReSpace with
    | ':' :: rest2 => some (T, rest2)
    | _ =>
      match lastColonSplit T with
      | some (pre, post) => if pre = [] then none else some (pre, post ++ rest0)
      | none => none

/-- The named groups of a layout match (regex `groupdict`). -/
structure MatchGroups where
  timestamp : Option Str := none
  pid : Option Str := none
  tid : Option Str := none
  level : Option Str := none
  tag : Option Str := none
  message : Option Str := none
deriving DecidableEq, Repr

/-- Regex `(?P<timestamp>\d{2}-\d{2}\s+\d{2}:\d{2}:\d{2}\.\d{3})`, shared by
the threadtime and time layouts. -/
def matchTimestamp (cs : Str) : Option (Str × Str) := do
  let (d1, r) ← takeCount isReDigit 2 cs
  let r ← charTok '-' r
  let (d2, r) ← takeCount isReDigit 2 r
  let (sp, r) ← takePlus isReSpace r
  let (hh, r) ← takeCount isReDigit 2 r
  let r ← charTok ':' r
  let (mi, r) ← takeCount isReDigit 2 r
  let r ← charTok ':' r
  let (se, r) ← takeCount isReDigit 2 r
  let r ← charTok '.' r
  let (ms, r) ← takeCount isReDigit 3 r
  return (d1 ++ '-' :: d2 ++ sp ++ hh ++ ':' :: mi ++ ':' :: se ++ '.' :: ms, r)

/-- parser_logcat.py `THREADTIME_PATTERN`. -/
def matchThreadtime (cs : Str) : Option MatchGroups := do
  let (ts, r) ← matchTimestamp cs
  let (_, r) ← takePlus isReSpace r
  let (pid, r) ← takePlus isReDigit r
  let (_, r) ← takePlus isReSpace r
  let (tid, r) ← takePlus isReDigit r
  let (_, r) ← takePlus isReSpace r
  let (lv, r) ← takeLevel r
  let (_, r) ← takePlus isReSpace r
  let (tag, r) ← matchTagColon r
  let msg ← matchMessageEnd (r.dropWhile isReSpace)
  return { timestamp := some ts, pid := some pid, tid := some tid,
           level := some lv, tag := some tag, message := some msg }

/-- parser_logcat.py `TIME_PATTERN`. -/
def matchTime (cs : Str) : Option MatchGroups := do
  let (ts, r) ← matchTimestamp cs
  let (_, r) ← takePlus isReSpace r
  let (lv, r) ← takeLevel r
  let r ← charTok '/' r
  let (tag, r) ← takeUntilTok '(' r
  let (pid, r) ← takePlus isReDigit (r.dropWhile isReSpace)
  let r ← charTok ')' r
  let r ← charTok ':' r
  let msg ← matchMessageEnd (r.dropWhile isReSpace)
  return { timestamp := some ts, level := some lv, tag := some tag,
           pid := some pid, message := some msg }

/-- parser_logcat.py `BRIEF_PATTERN`. -/
def matchBrief (cs : Str) : Option MatchGroups := do
  let (lv, r) ← takeLevel cs
  let r ← charTok '/' r
  let (tag, r) ← takeUntilTok '(' r
  let (pid, r) ← takePlus isReDigit (r.dropWhile isReSpace)
  let r ← charTok ')' r
  let r ← charTok ':' r
  let msg ← matchMessageEnd (r.dropWhile isReSpace)
  return { level := some lv, tag := some tag, pid := some pid, message := some msg }

/-- parser_logcat.py `TAG_PATTERN`. -/
def matchTag (cs : Str) : Option MatchGroups := do
  let (lv, r) ← takeLevel cs
  let r ← charTok '/' r
  let (tag, r) ← takeUntilTok ':' r
  let msg ← matchMessageEnd (r.dropWhile isReSpace)
  return { level := some lv, tag := some tag, message := some msg }

/-- parser_logcat.py `PROCESS_PATTERN`. -/
def matchProcess (cs : Str) : Option MatchGroups := do
  let (lv, r) ← takeLevel cs
  let r ← charTok '(' r
  let (pid, r) ← takePlus isReDigit (r.dropWhile isReSpace)
  let r ← charTok ')' r
  let msg ← matchMessageEnd (r.dropWhile isReSpace)
  return { level := some lv, pid := some pid, message := some msg }

/-- parser_logcat.py `PATTERNS`: the layouts in priority order. -/
def PATTERNS : List (Str → Option MatchGroups) :=
  [matchThreadtime, matchTime, matchBrief, matchTag, matchProcess]

/-- `line.rstrip("\n\r")`: remove every trailing newline or carriage
return character. -/
def pyRstripNewlines (s : Str) : Str :=
  (s.reverse.dropWhile (fun c => c = '\n' || c = '\r')).reverse

/-- Decimal value of a digit string (`int` on a `\d+` group never fails). -/
def digitsToNat (s : Str) : Nat :=
  s.foldl (fun a c => a * 10 + (c.toNat - '0'.toNat)) 0

/-- The loop of `parse_logcat_line`: first pattern that matches. -/
def firstSome : List (Str → Option MatchGroups) → Str → Option MatchGroups
  | [], _ => none
  | p :: ps, l =>
    match p l with
    | some g => some g
    | none => firstSome ps l

/-- parser_logcat.py `_build_entry_from_match`. -/
def buildEntryFromMatch (raw_line : Str) (g : MatchGroups) : LogEntry :=
  let level := match g.level with
    | some s => LogLevel.fromStr s
    | none => none
  let pid := match g.pid with
    | some s => if s ≠ [] then some (digitsToNat s) else none
    | none => none
  let tid := match g.tid with
    | some s => if s ≠ [] then some (digitsToNat s) else none
    | none => none
  let tag := match g.tag with
    | some t => if t ≠ [] then some (pyStrip t) else none
    | none => none
  { raw_line := raw_line, timestamp := g.timestamp, pid := pid, tid := tid,
    level := level, tag := tag, message := g.message.getD [] }

/-- parser_logcat.py `parse_logcat_line`. -/
def parse_logcat_line (line : Str) : LogEntry :=
  let line := pyRstripNewlines line
  match firstSome PATTERNS line with
  | some g => buildEntryFromMatch line g
  | none => { raw_line := line }

/-! ### Parser lemmas -/

theorem firstSome_eq_none (ps : List (Str → Option MatchGroups)) (l : Str)
    (h : ∀ p ∈ ps, p l = none) : firstSome ps l = none := by
  induction ps with
  | nil => rfl
  | cons p ps ih =>
    simp only [firstSome, h p (List.mem_cons_self p ps)]
    exact ih fun q hq => h q (List.mem_cons_of_mem _ hq)

theorem dropWhile_append_of_all {α : Type} {p : α → Bool} (a b : List α)
    (h : ∀ c ∈ a, p c = true) : (a ++ b).dropWhile p = b.dropWhile p := by
  induction a with
  | nil => rfl
  | cons c a ih =>
    have hc := h c (List.mem_cons_self c a)
    simp only [List.cons_append, List.dropWhile_cons, hc, if_true]
    exact ih fun d hd => h d (List.mem_cons_of_mem _ hd)

theorem dropWhile_eq_self_of_head {α : Type} {p : α → Bool} (l : List α)
    (h : ∀ c, l.head? = some c → p c = false) : l.dropWhile p = l := by
  cases l with
  | nil => rfl
  | cons c cs => simp [List.dropWhile_cons, h c rfl]

/-! ### C4: parser totality and graceful degradation -/

/-- C4: Parser totality and graceful degradation: `parse_logcat_line` is a
total function (intrinsic to the Lean embedding — the Python contract "never
throws"), and on any input on which all five layout matchers fail it returns
the record whose `raw_line` is the terminator-trimmed input with every other
field absent and an empty message. -/
theorem parse_total_graceful (s : Str)
    (h : ∀ p ∈ PATTERNS, p (pyRstripNewlines s) = none) :
    parse_logcat_line s =
      { raw_line := pyRstripNewlines s, timestamp := none, pid := none,
        tid := none, level := none, tag := none, message := [] } := by
  simp [parse_logcat_line, firstSome_eq_none _ _ h]

/-- Witness for C4: no layout matches `This is not a logcat line`, and the
result carries only the raw text. -/
theorem parse_total_graceful_witness :
    (∀ p ∈ PATTERNS, p (pyRstripNewlines "This is not a logcat line".toList) = none)
    ∧ parse_logcat_line "This is not a logcat line".toList =
      { raw_line := pyRstripNewlines "This is not a logcat line".toList,
        timestamp := none, pid := none, tid := none, level := none,
        tag := none, message := [] } :=
  ⟨by decide, parse_total_graceful _ (by decide)⟩

/-! ### C5: layout priority, anchoring and the representative line -/

/-- C5: Layout priority and anchoring: the representative threadtime line
decomposes exactly as specified; the ambiguous line `D/MyTag( 1234): Hello
world` fits both the brief and the tag layout shapes and is decomposed as
brief (pid populated); a line failing the start anchor (leading space) and a
line whose message region spans a newline (end anchor) degrade to the raw
record.  The priority order itself is the `PATTERNS` list. -/
theorem parse_layout_examples :
    parse_logcat_line "12-25 13:45:23.456  1234  5678 D MyTag  : Hello world".toList =
      { raw_line := "12-25 13:45:23.456  1234  5678 D MyTag  : Hello world".toList,
        timestamp := some "12-25 13:45:23.456".toList, pid := some 1234,
        tid := some 5678, level := some .debug, tag := some "MyTag".toList,
        message := "Hello world".toList }
    ∧ (matchBrief "D/MyTag( 1234): Hello world".toList).isSome = true
    ∧ (matchTag "D/MyTag( 1234): Hello world".toList).isSome = true
    ∧ parse_logcat_line "D/MyTag( 1234): Hello world".toList =
      { raw_line := "D/MyTag( 1234): Hello world".toList, timestamp := none,
        pid := some 1234, tid := none, level := some .debug,
        tag := some "MyTag".toList, message := "Hello world".toList }
    ∧ parse_logcat_line " D/MyTag: x".toList =
      { raw_line := " D/MyTag: x".toList, timestamp := none, pid := none,
        tid := none, level := none, tag := none, message := [] }
    ∧ parse_logcat_line "D/MyTag: a\nb".toList =
      { raw_line := "D/MyTag: a\nb".toList, timestamp := none, pid := none,
        tid := none, level := none, tag := none, message := [] }
    ∧ PATTERNS = [matchThreadtime, matchTime, matchBrief, matchTag, matchProcess] := by
  refine ⟨by decide, by decide, by decide, by decide, by decide, by decide, rfl⟩

/-! ### C6: trailing-terminator trimming -/

/-- Counterexample to C6 as stated: the code strips every trailing
terminator (`rstrip`), so for the input `a\n\n` the record's raw text is `a`,
not `a\n` as the single-terminator-trim claim requires. -/
theorem parse_single_trim_counterexample :
    (parse_logcat_line "a\n\n".toList).raw_line = "a".toList
    ∧ (parse_logcat_line "a\n\n".toList).raw_line ≠ ("a\n").toList := by
  constructor
  · decide
  · decide

/-- C6 (amended): before layout matching, `parse_logcat_line` removes every
trailing line-terminator character (`\n`/`\r`) — not exactly one — and
removes nothing when the input does not end with a terminator: appending any
run of terminators to a terminator-free-tail string leaves the parse
unchanged. -/
theorem parse_trim_all_terminators (s t : Str)
    (ht : ∀ c ∈ t, c = '\n' ∨ c = '\r')
    (hs : ∀ c, s.getLast? = some c → ¬(c = '\n' ∨ c = '\r')) :
    pyRstripNewlines (s ++ t) = s
    ∧ parse_logcat_line (s ++ t) = parse_logcat_line s := by
  have hdrop : ∀ u : Str, (∀ c, u.getLast? = some c → ¬(c = '\n' ∨ c = '\r')) →
      u.reverse.dropWhile (fun c => c = '\n' || c = '\r') = u.reverse := by
    intro u hu
    refine dropWhile_eq_self_of_head _ ?_
    intro c hc
    rw [List.head?_reverse] at hc
    have h := hu c hc
    push_neg at h
    simp [h.1, h.2]
  have h1 : pyRstripNewlines (s ++ t) = s := by
    unfold pyRstripNewlines
    rw [List.reverse_append]
    rw [dropWhile_append_of_all _ _ (fun c hc => by
      have := ht c (List.mem_reverse.mp hc)
      simp only [Bool.or_eq_true, decide_eq_true_eq]
      tauto)]
    rw [hdrop s hs, List.reverse_reverse]
  have h2 : pyRstripNewlines s = s := by
    unfold pyRstripNewlines
    rw [hdrop s hs, List.reverse_reverse]
  refine ⟨h1, ?_⟩
  unfold parse_logcat_line
  rw [h1, h2]

/-- Witness for C6 (amended) at `s = a`, `t = \n\n`: both terminators are
removed and the parse equals that of the bare string. -/
theorem parse_trim_all_terminators_witness :
    pyRstripNewlines ("a".toList ++ "\n\n".toList) = "a".toList
    ∧ parse_logcat_line ("a".toList ++ "\n\n".toList) = parse_logcat_line "a".toList :=
  parse_trim_all_terminators "a".toList "\n\n".toList (by decide) (by decide)

/-! ### parser_logcat.py: `parse_logcat_text` and the streaming interface -/

/-- Python line-break characters recognised by `str.splitlines`. -/
def isPyLineBreak (c : Char) : Bool :=
  c = '\n' || c = '\r' || c = '\x0b' || c = '\x0c' ||
  c = '\x1c' || c = '\x1d' || c = '\x1e' || c = '\x85' ||
  c = '\u2028' || c = '\u2029'

/-- Python `str.splitlines`: split at each line break (`\r\n` counting as a
single break), producing no trailing empty line for a terminated string.
`cur` is the current line read so far and `skipNl` records that the previous
character was `\r`, so that an immediately following `\n` closes no further
line. -/
def splitlinesAcc (skipNl : Bool) (cur : Str) : Str → List Str
  | [] => if cur = [] then [] else [cur]
  | c :: cs =>
    if c = '\n' then
      if skipNl then splitlinesAcc false [] cs
      else cur :: splitlinesAcc false [] cs
    else if c = '\r' then
      cur :: splitlinesAcc true [] cs
    else if isPyLineBreak c then
      cur :: splitlinesAcc false [] cs
    else
      splitlinesAcc false (cur ++ [c]) cs

/-- Python `str.splitlines` from an empty accumulator. -/
def pySplitlines (s : Str) : List Str := splitlinesAcc false [] s

/-- parser_logcat.py `parse_logcat_text`: one-shot parsing of a text's lines. -/
def parse_logcat_text (s : Str) : List LogEntry :=
  (pySplitlines s).map parse_logcat_line

/-- One produced record per non-empty completed line (the `if line:` filter
in `feed`). -/
def emitLine (line : Str) : List LogEntry :=
  if line = [] then [] else [parse_logcat_line line]

/-- The `while "\n" in buffer` loop of `LogcatStreamParser.feed`: split the
buffer at each newline in order, yielding a parse per non-empty completed
line; `cur` is the prefix of the current line read so far.  Returns the
produced entries and the remaining newline-free buffer. -/
def drainAcc (cur : Str) : Str → List LogEntry × Str
  | [] => ([], cur)
  | c :: cs =>
    if c = '\n' then
      let r := drainAcc [] cs
      (emitLine cur ++ r.1, r.2)
    else
      drainAcc (cur ++ [c]) cs

/-- parser_logcat.py `LogcatStreamParser.feed`: append the chunk to the
buffer and drain every completed line. -/
def feed (buffer data : Str) : List LogEntry × Str :=
  drainAcc [] (buffer ++ data)

/-- parser_logcat.py `LogcatStreamParser.flush`: parse the remaining buffer
unless it is empty or whitespace-only; the buffer is cleared either way. -/
def flush (buffer : Str) : Option LogEntry × Str :=
  if pyStrip buffer ≠ [] then (some (parse_logcat_line buffer), [])
  else (none, [])

/-- Feeding a sequence of chunks in order, threading the buffer. -/
def feedMany (buffer : Str) : List Str → List LogEntry × Str
  | [] => ([], buffer)
  | d :: ds =>
    let r := feed buffer d
    let r2 := feedMany r.2 ds
    (r.1 ++ r2.1, r2.2)

/-- All records produced by feeding the chunks to a fresh stream parser and
then flushing. -/
def streamRun (chunks : List Str) : List LogEntry :=
  let r := feedMany [] chunks
  r.1 ++ (flush r.2).1.toList

/-- All `\n`-separated segments of a string, empty segments included. -/
def nlSplit : Str → List Str
  | [] => [[]]
  | c :: cs =>
    if c = '\n' then [] :: nlSplit cs
    else
      match nlSplit cs with
      | s :: ss => (c :: s) :: ss
      | [] => [[c]]

/-- One parsed record per non-empty segment. -/
def linesEntries (segs : List Str) : List LogEntry :=
  segs.filterMap (fun l => if l = [] then none else some (parse_logcat_line l))

/-- The last segment (the unterminated rest of the input). -/
def lastSeg (segs : List Str) : Str := segs.getLastD []

/-- Prepend already-read characters to the first segment. -/
def prependHead (cur : Str) : List Str → List Str
  | [] => [cur]
  | s :: ss => (cur ++ s) :: ss

/-! ### Streaming lemmas -/

theorem nlSplit_ne_nil (s : Str) : nlSplit s ≠ [] := by
  cases s with
  | nil => simp [nlSplit]
  | cons c cs =>
    simp only [nlSplit]
    split
    · simp
    · cases nlSplit cs <;> simp

theorem prependHead_nil_of_ne_nil (X : List Str) (h : X ≠ []) : prependHead [] X = X := by
  cases X with
  | nil => exact absurd rfl h
  | cons s ss => simp [prependHead]

theorem lastSeg_cons (a : Str) (segs : List Str) (h : segs ≠ []) :
    lastSeg (a :: segs) = lastSeg segs := by
  cases segs with
  | nil => exact absurd rfl h
  | cons b t =>
    simp [lastSeg, List.getLastD_eq_getLast?, List.getLast?_cons_cons]

theorem linesEntries_cons (l : Str) (segs : List Str) :
    linesEntries (l :: segs) = emitLine l ++ linesEntries segs := by
  by_cases h : l = [] <;> simp [linesEntries, emitLine, h, List.filterMap_cons]

theorem drainAcc_cons_nl (cs cur : Str) :
    drainAcc cur ('\n' :: cs) = (emitLine cur ++ (drainAcc [] cs).1, (drainAcc [] cs).2) := by
  simp [drainAcc]

theorem drainAcc_cons_ne (c : Char) (cs cur : Str) (hc : c ≠ '\n') :
    drainAcc cur (c :: cs) = drainAcc (cur ++ [c]) cs := by
  simp [drainAcc, hc]

theorem nlSplit_cons_nl (cs : Str) : nlSplit ('\n' :: cs) = [] :: nlSplit cs := by
  simp [nlSplit]

theorem nlSplit_cons_ne (c : Char) (cs : Str) (hc : c ≠ '\n') {cur : Str} :
    prependHead cur (nlSplit (c :: cs)) = prependHead (cur ++ [c]) (nlSplit cs) := by
  simp only [nlSplit, if_neg hc]
  cases hsp : nlSplit cs with
  | nil => exact absurd hsp (nlSplit_ne_nil cs)
  | cons s ss => simp [prependHead]

/-- Characterisation of the feed loop: entries are the parses of the
non-empty completed segments, the remaining buffer is the last segment. -/
theorem drainAcc_eq (s cur : Str) :
    drainAcc cur s =
      (linesEntries (prependHead cur (nlSplit s)).dropLast,
       lastSeg (prependHead cur (nlSplit s))) := by
  induction s generalizing cur with
  | nil =>
    simp [drainAcc, nlSplit, prependHead, linesEntries, lastSeg]
  | cons c cs ih =>
    by_cases hc : c = '\n'
    · subst hc
      have hne := nlSplit_ne_nil cs
      rw [drainAcc_cons_nl, ih [], prependHead_nil_of_ne_nil _ hne, nlSplit_cons_nl]
      rw [show prependHead cur ([] :: nlSplit cs) = cur :: nlSplit cs from by
        simp [prependHead]]
      rw [List.dropLast_cons_of_ne_nil hne, linesEntries_cons, lastSeg_cons _ _ hne]
    · rw [drainAcc_cons_ne c cs cur hc, ih (cur ++ [c]), nlSplit_cons_ne c cs hc]

theorem drainAcc_snd_no_newline (s cur : Str) (h : '\n' ∉ cur) :
    '\n' ∉ (drainAcc cur s).2 := by
  induction s generalizing cur with
  | nil => exact h
  | cons c cs ih =>
    by_cases hc : c = '\n'
    · subst hc
      simp only [drainAcc, if_pos rfl]
      exact ih [] (by simp)
    · simp only [drainAcc, if_neg hc]
      refine ih (cur ++ [c]) ?_
      intro hmem
      rcases List.mem_append.mp hmem with hmem | hmem
      · exact h hmem
      · simp at hmem
        exact hc hmem.symm

theorem drainAcc_append (a b cur : Str) :
    drainAcc cur (a ++ b) =
      ((drainAcc cur a).1 ++ (drainAcc (drainAcc cur a).2 b).1,
       (drainAcc (drainAcc cur a).2 b).2) := by
  induction a generalizing cur with
  | nil => rfl
  | cons c a ih =>
    by_cases hc : c = '\n'
    · subst hc
      rw [List.cons_append, drainAcc_cons_nl, drainAcc_cons_nl, ih []]
      simp [List.append_assoc]
    · rw [List.cons_append, drainAcc_cons_ne c (a ++ b) cur hc,
        drainAcc_cons_ne c a cur hc, ih (cur ++ [c])]

theorem drainAcc_no_newline (r cur : Str) (h : '\n' ∉ r) :
    drainAcc cur r = ([], cur ++ r) := by
  induction r generalizing cur with
  | nil => simp [drainAcc]
  | cons c cs ih =>
    have hc : c ≠ '\n' := fun hcc => h (hcc ▸ List.mem_cons_self c cs)
    have hcs : '\n' ∉ cs := fun hm => h (List.mem_cons_of_mem _ hm)
    simp only [drainAcc, if_neg hc, ih _ hcs, List.append_assoc, List.singleton_append]

theorem drainAcc_carry (r t : Str) (h : '\n' ∉ r) :
    drainAcc [] (r ++ t) = drainAcc r t := by
  rw [drainAcc_append, drainAcc_no_newline r [] h]
  simp

theorem feedMany_eq (chunks : List Str) (buffer : Str) (hb : '\n' ∉ buffer) :
    feedMany buffer chunks = drainAcc [] (buffer ++ chunks.flatten) := by
  induction chunks generalizing buffer with
  | nil =>
    simp only [feedMany, List.flatten_nil, List.append_nil]
    rw [drainAcc_no_newline _ _ hb]
    simp
  | cons d ds ih =>
    simp only [feedMany, feed, List.flatten_cons]
    rw [ih (drainAcc [] (buffer ++ d)).2
      (drainAcc_snd_no_newline _ _ (List.not_mem_nil '\n'))]
    rw [drainAcc_carry _ _ (drainAcc_snd_no_newline _ _ (List.not_mem_nil '\n'))]
    conv_rhs => rw [show buffer ++ (d ++ ds.flatten) = (buffer ++ d) ++ ds.flatten from
      (List.append_assoc _ _ _).symm, drainAcc_append]

/-- Records produced by a whole run: the parses of the non-empty completed
segments, then whatever `flush` makes of the last (unterminated) segment. -/
theorem streamRun_eq (chunks : List Str) :
    streamRun chunks =
      linesEntries ((nlSplit chunks.flatten).dropLast)
        ++ (flush (lastSeg (nlSplit chunks.flatten))).1.toList := by
  unfold streamRun
  rw [feedMany_eq chunks [] (List.not_mem_nil '\n'), List.nil_append, drainAcc_eq,
    prependHead_nil_of_ne_nil _ (nlSplit_ne_nil _)]

theorem splitlinesAcc_only_nl (s cur : Str)
    (h : ∀ c ∈ s, isPyLineBreak c = true → c = '\n') :
    splitlinesAcc false cur s =
      (if lastSeg (prependHead cur (nlSplit s)) = []
       then (prependHead cur (nlSplit s)).dropLast
       else prependHead cur (nlSplit s)) := by
  induction s generalizing cur with
  | nil =>
    by_cases hcur : cur = [] <;>
      simp [splitlinesAcc, nlSplit, prependHead, lastSeg, hcur]
  | cons c cs ih =>
    have hcs : ∀ d ∈ cs, isPyLineBreak d = true → d = '\n' :=
      fun d hd => h d (List.mem_cons_of_mem _ hd)
    by_cases hc : c = '\n'
    · subst hc
      rw [show splitlinesAcc false cur ('\n' :: cs) = cur :: splitlinesAcc false [] cs from by
        simp [splitlinesAcc]]
      rw [ih [] hcs, prependHead_nil_of_ne_nil _ (nlSplit_ne_nil cs), nlSplit_cons_nl]
      rw [show prependHead cur ([] :: nlSplit cs) = cur :: nlSplit cs from by
        simp [prependHead]]
      rw [lastSeg_cons _ _ (nlSplit_ne_nil cs),
        List.dropLast_cons_of_ne_nil (nlSplit_ne_nil cs)]
      by_cases hl : lastSeg (nlSplit cs) = [] <;> simp [hl]
    · have hnc : isPyLineBreak c = false := by
        cases hbk : isPyLineBreak c
        · rfl
        · exact absurd (h c (List.mem_cons_self _ _) hbk) hc
      have hcr : c ≠ '\r' := by
        intro hcc
        subst hcc
        simp [isPyLineBreak] at hnc
      rw [show splitlinesAcc false cur (c :: cs) = splitlinesAcc false (cur ++ [c]) cs from by
        simp [splitlinesAcc, hc, hcr, hnc]]
      rw [ih (cur ++ [c]) hcs, nlSplit_cons_ne c cs hc]

/-- On text whose only line-break character is `\n`, `splitlines` gives the
`\n`-segments, minus a trailing empty segment for a terminated string. -/
theorem pySplitlines_only_nl (s : Str)
    (h : ∀ c ∈ s, isPyLineBreak c = true → c = '\n') :
    pySplitlines s =
      (if lastSeg (nlSplit s) = [] then (nlSplit s).dropLast else nlSplit s) := by
  unfold pySplitlines
  rw [splitlinesAcc_only_nl s [] h, prependHead_nil_of_ne_nil _ (nlSplit_ne_nil s)]

theorem linesEntries_all_ne (segs : List Str) (h : ∀ l ∈ segs, l ≠ []) :
    linesEntries segs = segs.map parse_logcat_line := by
  induction segs with
  | nil => rfl
  | cons l ls ih =>
    rw [linesEntries_cons, ih (fun x hx => h x (List.mem_cons_of_mem _ hx))]
    have hl := h l (List.mem_cons_self _ _)
    simp [emitLine, hl]

/-! ### C7: streaming/batch equivalence -/

/-- Counterexample to C7 as stated: for the input `\n` (one blank line) the
streaming parser produces no record at all — `feed` drops the empty completed
line and `flush` has nothing buffered — while one-shot parsing of the
string's lines produces one record for the empty line.  So feeding the chunks
of a string and flushing is not always equivalent to one-shot parsing. -/
theorem stream_oneshot_counterexample :
    streamRun ["\n".toList] = []
    ∧ parse_logcat_text (List.flatten ["\n".toList]) = [{ raw_line := [] }]
    ∧ streamRun ["\n".toList] ≠ parse_logcat_text (List.flatten ["\n".toList]) := by
  refine ⟨by decide, by decide, by decide⟩

/-- C7 (amended): for every way of splitting an input into chunks, feeding
all chunks and then flushing yields the same records as one-shot parsing of
the concatenation's lines, provided the concatenation uses `\n` as its only
line-break character, contains no empty completed line, and its final
unterminated segment (if any) is not whitespace-only.  (The blank-line and
whitespace-only-tail divergences are exactly the counterexample's; chunk-size
invariance itself is unconditional — both sides depend on the chunks only
through their concatenation.) -/
theorem stream_batch_equiv (chunks : List Str)
    (h1 : ∀ c ∈ chunks.flatten, isPyLineBreak c = true → c = '\n')
    (h2 : ∀ l ∈ (nlSplit chunks.flatten).dropLast, l ≠ [])
    (h3 : lastSeg (nlSplit chunks.flatten) = []
          ∨ pyStrip (lastSeg (nlSplit chunks.flatten)) ≠ []) :
    streamRun chunks = parse_logcat_text chunks.flatten := by
  rw [streamRun_eq]
  unfold parse_logcat_text
  rw [pySplitlines_only_nl _ h1, linesEntries_all_ne _ h2]
  rcases h3 with hl | hr
  · rw [hl, if_pos rfl]
    simp [flush, pyStrip]
  · have hlast_ne : lastSeg (nlSplit chunks.flatten) ≠ [] := by
      intro he
      rw [he] at hr
      simp [pyStrip] at hr
    rw [if_neg hlast_ne]
    have hsplit : nlSplit chunks.flatten =
        (nlSplit chunks.flatten).dropLast ++ [lastSeg (nlSplit chunks.flatten)] := by
      have hne := nlSplit_ne_nil chunks.flatten
      rw [lastSeg, List.getLastD_eq_getLast?, List.getLast?_eq_getLast _ hne]
      simp [List.dropLast_append_getLast hne]
    conv_rhs => rw [hsplit]
    rw [List.map_append]
    simp [flush, hr]

/-- Fixture: a terminated logcat line fed one character at a time. -/
def demoChunks : List Str := ("D/Tag( 1234): message\n".toList).map (fun c => [c])

/-- Witness for C7 (amended): feeding a terminated line char-by-char yields
exactly the one-shot parse of that line; a partial line yields nothing until
`flush`, which parses it, and a whitespace-only buffer flushes to nothing. -/
theorem stream_batch_equiv_witness :
    streamRun demoChunks = parse_logcat_text demoChunks.flatten
    ∧ parse_logcat_text demoChunks.flatten =
        [parse_logcat_line "D/Tag( 1234): message".toList]
    ∧ (feed [] "D/Tag( 1234): partial".toList).1 = []
    ∧ (flush "D/Tag( 1234): partial".toList).1 =
        some (parse_logcat_line "D/Tag( 1234): partial".toList)
    ∧ (flush "   ".toList).1 = none :=
  ⟨stream_batch_equiv demoChunks (by decide) (by decide) (by decide),
   by decide, by decide, by decide, by decide⟩

/-! ### C10: the streaming parser drops blank lines -/

/-- C10: `feed` yields one record per non-empty completed line and none for
an empty line (consecutive terminators, or input beginning with one), while
the one-shot parse of the empty string still returns a record whose raw text
is the empty string. -/
theorem feed_drops_blank_lines :
    (∀ buffer data : Str,
      (feed buffer data).1 = linesEntries ((nlSplit (buffer ++ data)).dropLast))
    ∧ parse_logcat_line [] =
      { raw_line := [], timestamp := none, pid := none, tid := none,
        level := none, tag := none, message := [] }
    ∧ (feed [] "\nc\n".toList).1 = [parse_logcat_line "c".toList]
    ∧ (feed [] "a\n\nb\n".toList).1 =
      [parse_logcat_line "a".toList, parse_logcat_line "b".toList] := by
  refine ⟨?_, by decide, by decide, by decide⟩
  intro buffer data
  unfold feed
  rw [drainAcc_eq, prependHead_nil_of_ne_nil _ (nlSplit_ne_nil _)]

/-! ### stream_router.py -/

/-- stream_router.py `StreamTarget`. -/
structure StreamTarget where
  path : Str
deriving DecidableEq, Repr

/-- stream_router.py `StreamTarget.is_stdout`. -/
def StreamTarget.is_stdout (t : StreamTarget) : Bool := t.path = "stdout".toList

/-- stream_router.py `StreamTarget.is_stderr`. -/
def StreamTarget.is_stderr (t : StreamTarget) : Bool := t.path = "stderr".toList

/-- stream_router.py `StreamTarget.is_devnull`. -/
def StreamTarget.is_devnull (t : StreamTarget) : Bool := t.path = "/dev/null".toList

/-- stream_router.py `StreamTarget.is_file`. -/
def StreamTarget.is_file (t : StreamTarget) : Bool :=
  !(t.is_stdout || t.is_stderr || t.is_devnull)

/-- stream_router.py `RoutingConfig`. -/
structure RoutingConfig where
  in_scope : StreamTarget
  ignored : StreamTarget
  noise : StreamTarget
deriving DecidableEq, Repr

/-- stream_router.py `RoutingConfig.default`. -/
def RoutingConfig.defaultConfig : RoutingConfig :=
  { in_scope := { path := "stdout".toList }
    ignored := { path := "/dev/null".toList }
    noise := { path := "stdout".toList } }

/-- Python `x or default`: the default replaces both `None` and the falsy
empty string. -/
def orDefault (o : Option Str) (d : Str) : Str :=
  match o with
  | none => d
  | some s => if s = [] then d else s

/-- stream_router.py `RoutingConfig.from_options`. -/
def RoutingConfig.from_options (in_scope ignored noise : Option Str) : RoutingConfig :=
  { in_scope := { path := orDefault in_scope "stdout".toList }
    ignored := { path := orDefault ignored "/dev/null".toList }
    noise := { path := orDefault noise "stdout".toList } }

/-- The state of one text stream: durably flushed content, still-buffered
content, and whether the handle is open. -/
structure StreamState where
  flushedContent : Str := []
  buffered : Str := []
  isOpen : Bool := true
deriving DecidableEq, Repr

/-- All streams of the process, indexed by handle id.  Handles `STDOUT = 0`
and `STDERR = 1` are the shared standard streams. -/
structure World where
  streams : Nat → StreamState

/-- Handle id of the shared standard output stream. -/
def STDOUT : Nat := 0

/-- Handle id of the shared standard error stream. -/
def STDERR : Nat := 1

/-- Replace one stream's state. -/
def setStream (w : World) (h : Nat) (st : StreamState) : World :=
  { streams := fun h2 => if h2 = h then st else w.streams h2 }

/-- `stream.write(s)`: append to the stream's buffer. -/
def hWrite (w : World) (h : Nat) (s : Str) : World :=
  setStream w h { w.streams h with buffered := (w.streams h).buffered ++ s }

/-- `stream.flush()`: move buffered content to the durable content. -/
def hFlush (w : World) (h : Nat) : World :=
  setStream w h
    { flushedContent := (w.streams h).flushedContent ++ (w.streams h).buffered,
      buffered := [], isOpen := (w.streams h).isOpen }

/-- `f.close()`: flush and mark the handle closed. -/
def hClose (w : World) (h : Nat) : World :=
  setStream w h
    { flushedContent := (w.streams h).flushedContent ++ (w.streams h).buffered,
      buffered := [], isOpen := false }

/-- stream_router.py `StreamRouter` mutable state: the `_handles` dict (a
partial map from category to handle) and the `_opened_files` list of owned
handles. -/
structure RouterState where
  handles : RouteCategory → Option Nat
  opened_files : List Nat

/-- stream_router.py `StreamRouter._open_stream`: the two built-in names
resolve to the shared standard streams (not owned); `/dev/null` and any
other path open a fresh truncated stream, owned and recorded in
`_opened_files`.  `next` supplies the fresh handle id.  Returns the handle,
the world, the next fresh id and the owned list. -/
def openStream (target : StreamTarget) (w : World) (next : Nat)
    (owned : List Nat) : Nat × World × Nat × List Nat :=
  if target.is_stdout then (STDOUT, w, next, owned)
  else if target.is_stderr then (STDERR, w, next, owned)
  else if target.is_devnull then
    (next, setStream w next {}, next + 1, owned ++ [next])
  else
    (next, setStream w next {}, next + 1, owned ++ [next])

/-- stream_router.py `StreamRouter.__enter__`: open the three configured
streams in the order IN_SCOPE, IGNORED, NOISE. -/
def routerEnter (config : RoutingConfig) (w : World) (next : Nat) :
    RouterState × World × Nat :=
  let o1 := openStream config.in_scope w next []
  let o2 := openStream config.ignored o1.2.1 o1.2.2.1 o1.2.2.2
  let o3 := openStream config.noise o2.2.1 o2.2.2.1 o2.2.2.2
  ({ handles := fun cat =>
      match cat with
      | .IN_SCOPE => some o1.1
      | .IGNORED => some o2.1
      | .NOISE => some o3.1,
     opened_files := o3.2.2.2 },
   o3.2.1, o3.2.2.1)

/-- stream_router.py `StreamRouter.__exit__`: close every owned handle in
order, swallowing individual close failures (`failSet` marks the handles
whose `close()` raises), then clear the owned list and the handle table. -/
def routerExit (st : RouterState) (w : World) (failSet : Nat → Bool) :
    RouterState × World :=
  ({ handles := fun _ => none, opened_files := [] },
   st.opened_files.foldl (fun acc f => if failSet f then acc else hClose acc f) w)

/-- `line.endswith("\n")`. -/
def endsWithNl (line : Str) : Bool := line.getLast? = some '\n'

/-- stream_router.py `StreamRouter.write`: look up the category's
destination (a `KeyError` on the cleared table, or a `ValueError` on a
closed handle, is modelled as an error), write the line, write a terminator
iff the line does not already end with one, and flush. -/
def RouterState.write (st : RouterState) (w : World) (cat : RouteCategory)
    (line : Str) : Except Unit World :=
  match st.handles cat with
  | none => .error ()
  | some h =>
    if (w.streams h).isOpen then
      let w1 := hWrite w h line
      let w2 := if endsWithNl line then w1 else hWrite w1 h ['\n']
      .ok (hFlush w2 h)
    else .error ()

/-- Looping `write` over a list of lines to one category. -/
def writeMany (st : RouterState) (w : World) (cat : RouteCategory) :
    List Str → Except Unit World
  | [] => .ok w
  | l :: ls =>
    match st.write w cat l with
    | .ok w2 => writeMany st w2 cat ls
    | .error e => .error e

/-- The bytes `write` emits for one line: the line, then a terminator iff
the line does not already end with one. -/
def normalizeLine (line : Str) : Str :=
  line ++ (if endsWithNl line then [] else ['\n'])

/-- A line with one trailing terminator (if any) removed. -/
def stripOneNl (line : Str) : Str :=
  if endsWithNl line then line.dropLast else line

/-! ### World lemmas -/

theorem setStream_self (w : World) (h : Nat) (st : StreamState) :
    (setStream w h st).streams h = st := by
  simp [setStream]

theorem setStream_other (w : World) (h h2 : Nat) (st : StreamState) (hne : h2 ≠ h) :
    (setStream w h st).streams h2 = w.streams h2 := by
  simp [setStream, hne]

theorem setStream_setStream (w : World) (h : Nat) (a b : StreamState) :
    setStream (setStream w h a) h b = setStream w h b := by
  unfold setStream
  congr 1
  funext h2
  by_cases hh2 : h2 = h <;> simp [hh2]

theorem hClose_other (w : World) (f h2 : Nat) (hne : h2 ≠ f) :
    (hClose w f).streams h2 = w.streams h2 := by
  unfold hClose
  exact setStream_other _ _ _ _ hne

theorem foldl_closeIf_not_mem (fs : Nat → Bool) (L : List Nat) (w : World)
    (h2 : Nat) (h : h2 ∉ L) :
    ((L.foldl (fun acc f => if fs f then acc else hClose acc f) w).streams h2)
      = w.streams h2 := by
  induction L generalizing w with
  | nil => rfl
  | cons f L ih =>
    have hne : h2 ≠ f := fun he => h (he ▸ List.mem_cons_self f L)
    have hL : h2 ∉ L := fun hm => h (List.mem_cons_of_mem _ hm)
    simp only [List.foldl_cons]
    rw [ih _ hL]
    by_cases hf : fs f
    · simp [hf]
    · simp [hf, hClose_other _ _ _ hne]

theorem foldl_closeIf_mem (fs : Nat → Bool) (L : List Nat) (w : World)
    (h2 : Nat) (hmem : h2 ∈ L) (hfs : fs h2 = false) :
    (((L.foldl (fun acc f => if fs f then acc else hClose acc f) w).streams h2).isOpen)
      = false := by
  induction L generalizing w with
  | nil => exact absurd hmem (List.not_mem_nil h2)
  | cons f L ih =>
    by_cases hL : h2 ∈ L
    · simp only [List.foldl_cons]
      exact ih _ hL
    · have hf : h2 = f := by
        rcases List.mem_cons.mp hmem with he | he
        · exact he
        · exact absurd he hL
      subst hf
      simp only [List.foldl_cons, hfs, if_false]
      rw [foldl_closeIf_not_mem fs L _ h2 hL]
      simp [hClose, setStream_self]

theorem openStream_ids (t : StreamTarget) (w : World) (next : Nat)
    (owned : List Nat) (k : Nat) (hn : k ≤ next) (ho : ∀ x ∈ owned, k ≤ x) :
    k ≤ (openStream t w next owned).2.2.1
    ∧ ∀ x ∈ (openStream t w next owned).2.2.2, k ≤ x := by
  unfold openStream
  split_ifs
  · exact ⟨hn, ho⟩
  · exact ⟨hn, ho⟩
  · refine ⟨Nat.le_succ_of_le hn, ?_⟩
    intro x hx
    rcases List.mem_append.mp hx with hx | hx
    · exact ho x hx
    · simp at hx
      omega
  · refine ⟨Nat.le_succ_of_le hn, ?_⟩
    intro x hx
    rcases List.mem_append.mp hx with hx | hx
    · exact ho x hx
    · simp at hx
      omega

theorem setStream_eta (w : World) (h : Nat) : setStream w h (w.streams h) = w := by
  cases w with
  | mk f =>
    simp only [setStream]
    congr 1
    funext h2
    by_cases hh2 : h2 = h <;> simp [hh2]

theorem write_ok (st : RouterState) (w : World) (cat : RouteCategory) (line : Str)
    (h : Nat) (hh : st.handles cat = some h) (hopen : (w.streams h).isOpen = true) :
    st.write w cat line =
      .ok (setStream w h
        { flushedContent := (w.streams h).flushedContent ++ (w.streams h).buffered
            ++ normalizeLine line,
          buffered := [], isOpen := true }) := by
  unfold RouterState.write
  rw [hh]
  simp only [hopen, if_true]
  by_cases hend : endsWithNl line
  · simp [hend, hWrite, hFlush, normalizeLine, setStream_self, setStream_setStream,
      List.append_assoc, hopen]
  · simp [hend, hWrite, hFlush, normalizeLine, setStream_self, setStream_setStream,
      List.append_assoc, hopen]

/-! ### C8: router write normalisation -/

/-- C8: `write` to an open destination emits the line followed by a
terminator iff the line does not already end with one, flushing immediately
(the destination's buffer is empty afterwards and everything written is
durable); writing N single lines to a destination starting with an empty
buffer leaves its durable content equal to exactly those N lines in order,
each terminated by exactly one line break whether or not the input carried
one. -/
theorem router_write_spec (st : RouterState) (w : World) (cat : RouteCategory)
    (line : Str) (lines : List Str) (h : Nat)
    (hh : st.handles cat = some h) (hopen : (w.streams h).isOpen = true) :
    (st.write w cat line =
      .ok (setStream w h
        { flushedContent := (w.streams h).flushedContent ++ (w.streams h).buffered
            ++ normalizeLine line,
          buffered := [], isOpen := true }))
    ∧ ((w.streams h).buffered = [] →
        writeMany st w cat lines =
          .ok (setStream w h
            { flushedContent := (w.streams h).flushedContent
                ++ (lines.map normalizeLine).flatten,
              buffered := [], isOpen := true }))
    ∧ (∀ l : Str, '\n' ∉ stripOneNl l →
        normalizeLine l = stripOneNl l ++ ['\n']
        ∧ (normalizeLine l).count '\n' = 1) := by
  refine ⟨write_ok st w cat line h hh hopen, ?_, ?_⟩
  · intro hbuf
    induction lines generalizing w with
    | nil =>
      simp only [writeMany, List.map_nil, List.flatten_nil, List.append_nil]
      have hrec : (⟨(w.streams h).flushedContent, [], true⟩ : StreamState) = w.streams h := by
        rcases hws : w.streams h with ⟨f, b, o⟩
        rw [hws] at hbuf hopen
        simp only at hbuf hopen
        simp [hbuf, hopen]
      rw [hrec, setStream_eta]
    | cons l ls ih =>
      have hopen2 : ((setStream w h
          { flushedContent := (w.streams h).flushedContent ++ (w.streams h).buffered
              ++ normalizeLine l,
            buffered := [], isOpen := true }).streams h).isOpen = true := by
        rw [setStream_self]
      have hbuf2 : ((setStream w h
          { flushedContent := (w.streams h).flushedContent ++ (w.streams h).buffered
              ++ normalizeLine l,
            buffered := [], isOpen := true }).streams h).buffered = [] := by
        rw [setStream_self]
      simp only [writeMany, write_ok st w cat l h hh hopen]
      rw [ih _ hopen2 hbuf2]
      rw [setStream_setStream]
      simp [setStream_self, hbuf, List.append_assoc]
  · intro l hl
    by_cases hend : endsWithNl l
    · have hne : l ≠ [] := by
        intro he
        rw [he] at hend
        simp [endsWithNl] at hend
      have h3 := List.dropLast_append_getLast hne
      have h5 := hend
      simp only [endsWithNl, decide_eq_true_eq] at h5
      have h4 : l.getLast hne = '\n' := by
        rw [List.getLast?_eq_getLast _ hne] at h5
        exact Option.some.inj h5
      rw [h4] at h3
      constructor
      · rw [normalizeLine, if_pos hend, List.append_nil, stripOneNl, if_pos hend]
        exact h3.symm
      · rw [normalizeLine, if_pos hend, List.append_nil]
        conv_lhs => rw [← h3]
        rw [List.count_append]
        rw [stripOneNl, if_pos hend] at hl
        simp [List.count_eq_zero.mpr hl]
    · constructor
      · rw [normalizeLine, if_neg hend, stripOneNl, if_neg hend]
      · rw [normalizeLine, if_neg hend, List.count_append]
        rw [stripOneNl, if_neg hend] at hl
        simp [List.count_eq_zero.mpr hl]

/-- Fixture: a router whose IN_SCOPE destination is the owned handle 2. -/
def demoRouterState : RouterState :=
  { handles := fun _ => some 2, opened_files := [2] }

/-- Fixture: a world where every stream is freshly opened and empty. -/
def demoWorld : World := { streams := fun _ => {} }

/-- Witness for C8 at concrete inputs: a line without a terminator gets
exactly one appended, a line with one is written as-is, and two lines leave
the destination holding exactly the two terminated lines. -/
theorem router_write_spec_witness :
    demoRouterState.write demoWorld .IN_SCOPE "hello".toList =
      .ok (setStream demoWorld 2
        { flushedContent := "hello\n".toList, buffered := [], isOpen := true })
    ∧ writeMany demoRouterState demoWorld .IN_SCOPE ["a".toList, "b\n".toList] =
      .ok (setStream demoWorld 2
        { flushedContent := "a\nb\n".toList, buffered := [], isOpen := true })
    ∧ normalizeLine "a".toList = stripOneNl "a".toList ++ ['\n']
    ∧ (normalizeLine "b\n".toList).count '\n' = 1 :=
  ⟨(router_write_spec demoRouterState demoWorld .IN_SCOPE "hello".toList [] 2
      rfl rfl).1,
   (router_write_spec demoRouterState demoWorld .IN_SCOPE [] ["a".toList, "b\n".toList] 2
      rfl rfl).2.1 rfl,
   ((router_write_spec demoRouterState demoWorld .IN_SCOPE [] [] 2 rfl rfl).2.2
      "a".toList (by decide)).1,
   ((router_write_spec demoRouterState demoWorld .IN_SCOPE [] [] 2 rfl rfl).2.2
      "b\n".toList (by decide)).2⟩

/-- Every handle the router opens for itself has an id at least `next`, so
it is distinct from the shared standard handles when `next` exceeds them. -/
theorem routerEnter_owned_ge (cfg : RoutingConfig) (w0 : World) (next : Nat) :
    ∀ x ∈ (routerEnter cfg w0 next).1.opened_files, next ≤ x := by
  intro x hx
  simp only [routerEnter] at hx
  have A1 := openStream_ids cfg.in_scope w0 next [] next le_rfl
    (fun y hy => absurd hy (List.not_mem_nil y))
  have A2 := openStream_ids cfg.ignored (openStream cfg.in_scope w0 next []).2.1
    (openStream cfg.in_scope w0 next []).2.2.1
    (openStream cfg.in_scope w0 next []).2.2.2 next A1.1 A1.2
  have A3 := openStream_ids cfg.noise
    (openStream cfg.ignored (openStream cfg.in_scope w0 next []).2.1
      (openStream cfg.in_scope w0 next []).2.2.1
      (openStream cfg.in_scope w0 next []).2.2.2).2.1
    (openStream cfg.ignored (openStream cfg.in_scope w0 next []).2.1
      (openStream cfg.in_scope w0 next []).2.2.1
      (openStream cfg.in_scope w0 next []).2.2.2).2.2.1
    (openStream cfg.ignored (openStream cfg.in_scope w0 next []).2.1
      (openStream cfg.in_scope w0 next []).2.2.1
      (openStream cfg.in_scope w0 next []).2.2.2).2.2.2 next A2.1 A2.2
  exact A3.2 x hx

/-! ### C9: router close lifecycle -/

/-- C9: After opening from fresh id 2, close closes exactly the handles the
router itself opened and leaves every other stream — in particular the
shared standard output/error, which are never owned — untouched; close with
failing handles still runs to completion and clears the owned list and the
handle table; a second close on the cleared state performs no close
operation and is harmless; and after close every write request returns an
error instead of reaching any handle. -/
theorem router_close_spec (cfg : RoutingConfig) (w0 : World) (failSet : Nat → Bool)
    (cat : RouteCategory) (line : Str) :
    (∀ h2 ∈ (routerEnter cfg w0 2).1.opened_files,
      (((routerExit (routerEnter cfg w0 2).1 (routerEnter cfg w0 2).2.1
          (fun _ => false)).2).streams h2).isOpen = false)
    ∧ (∀ h2, h2 ∉ (routerEnter cfg w0 2).1.opened_files →
        ((routerExit (routerEnter cfg w0 2).1 (routerEnter cfg w0 2).2.1
          (fun _ => false)).2).streams h2
          = (routerEnter cfg w0 2).2.1.streams h2)
    ∧ STDOUT ∉ (routerEnter cfg w0 2).1.opened_files
    ∧ STDERR ∉ (routerEnter cfg w0 2).1.opened_files
    ∧ (∀ w2 : World,
        routerExit (routerExit (routerEnter cfg w0 2).1 (routerEnter cfg w0 2).2.1
          failSet).1 w2 failSet
        = ((routerExit (routerEnter cfg w0 2).1 (routerEnter cfg w0 2).2.1 failSet).1, w2))
    ∧ (routerExit (routerEnter cfg w0 2).1 (routerEnter cfg w0 2).2.1
        failSet).1.handles cat = none
    ∧ (routerExit (routerEnter cfg w0 2).1 (routerEnter cfg w0 2).2.1
        failSet).1.opened_files = []
    ∧ (∀ w2 : World,
        (routerExit (routerEnter cfg w0 2).1 (routerEnter cfg w0 2).2.1
          failSet).1.write w2 cat line = .error ()) := by
  refine ⟨?_, ?_, ?_, ?_, ?_, rfl, rfl, ?_⟩
  · intro h2 hmem
    simp only [routerExit]
    exact foldl_closeIf_mem _ _ _ _ hmem rfl
  · intro h2 hmem
    simp only [routerExit]
    exact foldl_closeIf_not_mem _ _ _ _ hmem
  · intro hmem
    have h2 := routerEnter_owned_ge cfg w0 2 STDOUT hmem
    exact absurd h2 (by decide)
  · intro hmem
    have h2 := routerEnter_owned_ge cfg w0 2 STDERR hmem
    exact absurd h2 (by decide)
  · intro w2
    rfl
  · intro w2
    rfl

/-- Fixture: a routing config with one file target and the defaults. -/
def demoConfig : RoutingConfig :=
  RoutingConfig.from_options (some "app.log".toList) none none

/-- Fixture: the router and world after opening `demoConfig` from fresh id 2. -/
def demoEnter : RouterState × World × Nat := routerEnter demoConfig demoWorld 2

/-- Witness for C9 at a concrete config (a file target plus the defaults):
the owned file handle 2 is closed, the shared standard output stream is left
untouched, and a write after close fails. -/
theorem router_close_spec_witness :
    (((routerExit demoEnter.1 demoEnter.2.1 (fun _ => false)).2).streams 2).isOpen = false
    ∧ ((routerExit demoEnter.1 demoEnter.2.1 (fun _ => false)).2).streams STDOUT
        = demoEnter.2.1.streams STDOUT
    ∧ (routerExit demoEnter.1 demoEnter.2.1 (fun _ => false)).1.write demoWorld
        .IN_SCOPE "x".toList = .error () :=
  ⟨(router_close_spec demoConfig demoWorld (fun _ => false) .IN_SCOPE "x".toList).1
      2 (by decide),
   (router_close_spec demoConfig demoWorld (fun _ => false) .IN_SCOPE "x".toList).2.1
      STDOUT (by decide),
   (router_close_spec demoConfig demoWorld (fun _ => false) .IN_SCOPE
      "x".toList).2.2.2.2.2.2.2 demoWorld⟩

end LCFilter
